import Mathlib

/-!
Shallow embedding of `src/packages/core-suggest/core-suggest.js` (the
`CoreSuggest` custom element) together with proofs about the behaviour its
specification claims.  JavaScript strings are modelled as `List Char`;
machine-level DOM objects (candidate anchors/buttons, the widget's
attributes, the debounce timer and the XMLHttpRequest slot) are modelled as
explicit record fields.  Host-environment primitives that the component
merely calls (`toggleAttribute`, `dispatchEvent`, `JSON.parse`,
`encodeURIComponent`) are modelled at their interface: cancellable event
dispatch becomes a boolean parameter, JSON parsing becomes an
`Except`-valued argument, and the URL-encoded request is recorded by the
input value interpolated into it.
-/

/-- JavaScript strings, modelled as sequences of characters. -/
abbrev Str := List Char

/-- `String.prototype.toLowerCase`, modelled characterwise. -/
def jsToLower (s : Str) : Str := s.map Char.toLower

/-- `String.prototype.trim`: strip leading and trailing whitespace. -/
def jsTrim (s : Str) : Str :=
  ((s.dropWhile Char.isWhitespace).reverse.dropWhile Char.isWhitespace).reverse

/-- Does `n` occur in `h` starting at position `p`?  (Bool-valued.) -/
def matchesAt (h n : Str) (p : Nat) : Bool := n.isPrefixOf (h.drop p)

/-- `String.prototype.indexOf(n, start)`: the least position `p ≥ start`
at which `n` occurs in `h`, or `none`. -/
def jsIndexOfFrom (h n : Str) (start : Nat) : Option Nat :=
  (List.range (h.length + 1)).find? (fun p => decide (start ≤ p) && matchesAt h n p)

/-- `h.indexOf(n)` with JavaScript's `-1`-for-absent convention. -/
def jsIndexOf (h n : Str) : Int :=
  match jsIndexOfFrom h n 0 with
  | some p => (p : Int)
  | none => -1

/-- The substring-occurrence predicate (specification side): `n` occurs
somewhere in `h`. -/
def occursIn (n h : Str) : Prop := ∃ p, n.isPrefixOf (h.drop p)

/-- Bool-valued version of `occursIn`, used for decidability. -/
def occursInB (n h : Str) : Bool :=
  (List.range (h.length + 1)).any (fun p => n.isPrefixOf (h.drop p))

theorem occursIn_iff_occursInB (n h : Str) : occursIn n h ↔ occursInB n h = true := by
  unfold occursIn occursInB
  rw [List.any_eq_true]
  constructor
  · rintro ⟨p, hp⟩
    by_cases hlen : p ≤ h.length
    · exact ⟨p, List.mem_range.mpr (by omega), hp⟩
    · refine ⟨h.length, List.mem_range.mpr (by omega), ?_⟩
      have h1 : h.drop p = [] := List.drop_eq_nil_of_le (by omega)
      have h2 : h.drop h.length = [] := List.drop_eq_nil_of_le (by omega)
      rw [h1] at hp
      rw [h2]
      exact hp
  · rintro ⟨p, _, hp⟩; exact ⟨p, hp⟩

instance (n h : Str) : Decidable (occursIn n h) :=
  decidable_of_iff _ (occursIn_iff_occursInB n h).symm

/-- One candidate item: an `<a>` or `<button>` descendant of the widget.
`value` is the element's `value` property (empty for anchors and for
buttons without a value — both are falsy in the source's `||` chains). -/
structure Item where
  value : Str
  textContent : Str
  hidden : Bool
  tabindexNeg1 : Bool
  ariaLabel : Str
  typeAttr : Str
deriving DecidableEq, Inhabited, Repr

/-- JavaScript `a || b` on strings (empty string is falsy). -/
def jsOr (a b : Str) : Str := if a = [] then b else a

/-- `get limit () { return Math.max(0, this.getAttribute('limit')) || Infinity }`.
The attribute is modelled as an optional integer (`none` = attribute
absent, which JavaScript coerces to `0`).  The result `none` stands for
`Infinity`: note that an attribute value of `0` (or any non-positive
value) also yields `Infinity`, because `0 || Infinity` is `Infinity`. -/
def limitGetter (attr : Option Int) : Option Nat :=
  let m : Int := max 0 (match attr with | none => 0 | some v => v)
  if m = 0 then none else some m.toNat

/-- `Math.min(items.length, self.limit)` where `self.limit` may be
`Infinity` (`none`). -/
def jsMinLimit (n : Nat) (lim : Option Nat) : Nat :=
  match lim with
  | none => n
  | some l => min n l

/-- One alternative-matching step of the JavaScript regex
`/^on|off|keep$/i` at position `p` of the lowercased subject `l`:
alternation binds loosest, so the three alternatives are `^on`, `off`
(anywhere) and `keep$`, tried in that order at each position. -/
def highlightRegexAt (l : Str) (p : Nat) : Option Str :=
  if p = 0 && ("on".toList.isPrefixOf l) then some "on".toList
  else if "off".toList.isPrefixOf (l.drop p) then some "off".toList
  else if l.drop p = "keep".toList then some "keep".toList
  else none

/-- `exec` of `/^on|off|keep$/i`: leftmost match wins. -/
def highlightRegexExec (l : Str) : Option Str :=
  (List.range (l.length + 1)).findSome? (highlightRegexAt l)

/-- `get highlight ()`: regex-match the attribute (JavaScript coerces an
absent attribute, `null`, to the string "null") and fall back to `'on'`. -/
def highlightGetter (attr : Option Str) : Str :=
  (highlightRegexExec (jsToLower (match attr with | none => "null".toList | some v => v))).getD
    "on".toList

example : highlightGetter (some "keep".toList) = "keep".toList := by decide
example : highlightGetter (some "OFF".toList) = "off".toList := by decide
example : highlightGetter (some "on".toList) = "on".toList := by decide
example : highlightGetter none = "on".toList := by decide
example : highlightGetter (some "bogus".toList) = "on".toList := by decide
example : limitGetter (some 0) = none := by decide
example : limitGetter (some 3) = some 3 := by decide
example : limitGetter none = none := by decide
example : limitGetter (some (-2)) = none := by decide
example : jsIndexOf "abcbc".toList "bc".toList = 1 := by decide
example : jsIndexOf "abc".toList "x".toList = -1 := by decide

/-- Events dispatched (or observably performed) by the component; used as a
log so theorems can speak about which notifications fired. -/
inductive SEvent where
  | filter
  | select
  | beforeSend
  | ajaxError
  | ajaxData
deriving DecidableEq, Repr

/-- A focusable place in the page, as seen by the widget's handlers: the
associated input, the candidate item at position `i` of the widget's item
list, or anything outside both. -/
inductive FocusTarget where
  | input
  | item (i : Nat)
  | outside
deriving DecidableEq, Repr

/-- `IS_IE11` environment check from the utility layer.
Modelled from the spec: the spec's contract targets the regular browser
environment ("Highlights disabled for IE11 due to bugs" is a code comment
about a legacy engine), so the flag is `false` here. -/
def IS_IE11 : Bool := false

/-- The modelled state of one `CoreSuggest` widget, its associated input
and its internal fields.  Highlight `<mark>` elements are modelled as the
list of character intervals (start inclusive, stop exclusive) they cover
inside the widget's concatenated text content.  `timerId` is the pending
debounce timer handle (`_xhrTime`), `inflight` the values of requests
currently in flight on `_xhr` (the value is what gets URL-encoded into the
request), and `sent` the log of all requests ever issued. -/
structure CS where
  items : List Item
  limitAttr : Option Int
  highlightAttr : Option Str
  ajaxAttr : Str
  inputValue : Str
  widgetHidden : Bool
  marks : List (Nat × Nat)
  observerActive : Bool
  listenClick : Bool
  listenInput : Bool
  listenKeydown : Bool
  listenFocusin : Bool
  inputRef : Bool
  xhrRef : Bool
  regexRef : Bool
  timerId : Option Nat
  nextTimer : Nat
  inflight : List Str
  sent : List Str
  eventsLog : List SEvent
  focusOn : Option FocusTarget
deriving Repr

/-- decimal rendering of a natural number, as a JS string -/
def natStr (n : Nat) : Str := (Nat.repr n).toList

/-- `toggleItem(item, show)`: sets or removes the `hidden` attribute on the
item (and its parent `<li>`, which the model folds into the single
`hidden` flag). -/
def toggleItem (it : Item) (showFlag : Bool) : Item := { it with hidden := showFlag }

/-- The enhancement loop of `onMutation`: walks the items that were visible
when the pass started (the query selects `a:not([hidden]),button:not([hidden])`,
so already-hidden items are untouched), assigns `aria-label`,
`tabindex="-1"` and `type="button"`, and hides every visible item whose
visible-index reaches `limit`.  `i` is the running visible-index. -/
def mutateItems : List Item → Nat → Nat → List Item
  | [], _, _ => []
  | it :: rest, i, limit =>
    if it.hidden then it :: mutateItems rest i limit
    else
      { it with
        ariaLabel := it.textContent ++ ", ".toList ++ natStr (i + 1) ++ " av ".toList ++
          natStr limit
        tabindexNeg1 := true
        typeAttr := "button".toList
        hidden := decide (limit ≤ i) } :: mutateItems rest (i + 1) limit

/-- Number of visible (not `hidden`) candidate items: the length of the
`a:not([hidden]),button:not([hidden])` query result. -/
def countVisible : List Item → Nat
  | [] => 0
  | it :: rest => (if it.hidden then 0 else 1) + countVisible rest

/-- The widget's `textContent`: concatenation of all items' text (hidden
items included — `textContent` does not skip hidden subtrees). -/
def fullText (items : List Item) : Str := items.foldr (fun it acc => it.textContent ++ acc) []

/-- The `indexOf` scan of `onMutation` collecting highlight hits:
`for (let start = 0; (start = haystack.indexOf(needle, start)) !== -1; start += length)`.
Fuel-indexed; each found hit advances `start` by `needle.length`. -/
def findHitsAux : Nat → Str → Str → Nat → List Nat
  | 0, _, _, _ => []
  | fuel + 1, h, n, start =>
    match jsIndexOfFrom h n start with
    | none => []
    | some p => p :: findHitsAux fuel h n (p + n.length)

/-- All hits of the non-overlapping left-to-right scan. -/
def findHits (h n : Str) : List Nat := findHitsAux (h.length + 1) h n 0

/-- `onMutation`: aborts when disconnected; removes old `<mark>`s unless
highlight mode is `keep`; enhances and limits the visible items; when the
trimmed lowercased input is nonempty and highlight mode is `on`, marks
every hit of the scan over the widget's whole lowercased text. -/
def onMutation (s : CS) : CS :=
  if !s.observerActive then s
  else
    let needle := jsTrim (jsToLower s.inputValue)
    let limit := jsMinLimit (countVisible s.items) (limitGetter s.limitAttr)
    let marks1 := if highlightGetter s.highlightAttr ≠ "keep".toList then [] else s.marks
    let items1 := mutateItems s.items 0 limit
    let haystack := jsToLower (fullText items1)
    let marks2 :=
      if needle ≠ [] && highlightGetter s.highlightAttr = "on".toList && !IS_IE11 then
        (findHits haystack needle).map (fun p => (p, p + needle.length))
      else marks1
    { s with items := items1, marks := marks2 }

/-- A freshly connected widget with no items, no attributes, empty input:
the baseline state used by concrete witnesses and counterexamples. -/
def baseCS : CS where
  items := []
  limitAttr := none
  highlightAttr := none
  ajaxAttr := []
  inputValue := []
  widgetHidden := false
  marks := []
  observerActive := true
  listenClick := true
  listenInput := true
  listenKeydown := true
  listenFocusin := true
  inputRef := true
  xhrRef := true
  regexRef := true
  timerId := none
  nextTimer := 0
  inflight := []
  sent := []
  eventsLog := []
  focusOn := none

example :
    countVisible (onMutation
      { baseCS with items := [default, default, default], limitAttr := some 2 }).items = 2 := by
  decide

/-- `disconnectedCallback`: removes the four document-level listeners,
disconnects the mutation observer and nulls out `_observer`, `_input`,
`_regex` and `_xhr`.  It does not call `clearTimeout(this._xhrTime)` and
does not call `this._xhr.abort()`, so the pending debounce timer and any
in-flight request are left as they are. -/
def disconnectedCallback (s : CS) : CS :=
  { s with
    listenClick := false
    listenInput := false
    listenKeydown := false
    listenFocusin := false
    observerActive := false
    inputRef := false
    regexRef := false
    xhrRef := false }

/-- The filtering loop of `onInput`: over all `a,button` descendants
(hidden ones included), set `hidden` exactly when
`(item.value || item.textContent).toLowerCase().indexOf(value) === -1`,
where `value` is the lowercased input value. -/
def filterItems (items : List Item) (value : Str) : List Item :=
  items.map (fun it =>
    toggleItem it (decide (jsIndexOf (jsToLower (jsOr it.value it.textContent)) value = -1)))

/-- `onAjax`: runs only when the `ajax` attribute is nonempty; clears the
previous debounce timer, aborts the previous request, and schedules
`onAjaxSend` after the 500 ms debounce.  Fresh timer ids model
`setTimeout` handles. -/
def onAjax (s : CS) : CS :=
  { s with timerId := some s.nextTimer, nextTimer := s.nextTimer + 1, inflight := [] }

/-- `onInput`: ignores events not targeting the associated input; dispatches
the cancelable `suggest.filter` event; stops if a listener canceled it;
takes the debounced-ajax path when an endpoint is configured, otherwise
filters the items locally against the current input value. -/
def onInput (s : CS) (targetIsInput filterCanceled : Bool) : CS :=
  if !targetIsInput then s
  else
    let s1 := { s with eventsLog := s.eventsLog ++ [SEvent.filter] }
    if filterCanceled then s1
    else if s1.ajaxAttr ≠ [] then onAjax s1
    else { s1 with items := filterItems s1.items (jsToLower s1.inputValue) }

/-- `onAjaxSend` (the debounce callback): aborts when the component has been
disconnected or the input is empty; otherwise dispatches the cancelable
`suggest.ajax.beforeSend` event and, unless canceled, issues the GET
request for the current input value (which the source URL-encodes into the
`{{value}}` placeholder of the `ajax` attribute). -/
def onAjaxSend (s : CS) (beforeSendCanceled : Bool) : CS :=
  if !s.observerActive || s.inputValue = [] then s
  else
    let s1 := { s with eventsLog := s.eventsLog ++ [SEvent.beforeSend] }
    if beforeSendCanceled then s1
    else { s1 with inflight := s1.inflight ++ [s1.inputValue], sent := s1.sent ++ [s1.inputValue] }

/-- External stimuli driving the debounce machinery: a keystroke in the
input (carrying the new input value and whether a listener cancels the
`suggest.filter` event), the expiry of a `setTimeout` handle (carrying
whether a listener cancels `suggest.ajax.beforeSend`), and the completion
of the in-flight request. -/
inductive TraceEv where
  | keystroke (v : Str) (filterCanceled : Bool)
  | timerFire (id : Nat) (beforeSendCanceled : Bool)
  | complete
deriving DecidableEq, Repr

/-- One step of the event loop.  A fired timer only runs its callback if it
is still the widget's current `_xhrTime` handle — `clearTimeout` in
`onAjax` is modelled by the id mismatch making a superseded expiry a no-op.
Completion settles the in-flight request (its `onload`/`onerror` handlers
are modelled separately by `onloadHandler`/`onerrorHandler`). -/
def stepEv (s : CS) : TraceEv → CS
  | .keystroke v fc => onInput { s with inputValue := v } true fc
  | .timerFire id bs => if s.timerId = some id then onAjaxSend { s with timerId := none } bs else s
  | .complete => { s with inflight := [] }

/-- Run a sequence of stimuli. -/
def runEvs (s : CS) : List TraceEv → CS
  | [] => s
  | e :: rest => runEvs (stepEv s e) rest

/-- The parts of a click/focusin event that `onClick` inspects. -/
structure ClickCtx where
  isClick : Bool
  targetInWidget : Bool
  targetIsInput : Bool
  closestItem : Option Item
deriving Repr

/-- `onClick` (handler for both `click` and `focusin`): only a `click`
whose target lies inside the widget resolves to a candidate item (`closest`
over `a,button`); the cancelable `suggest.select` is dispatched for it, and
unless canceled the input value becomes `item.value || item.textContent.trim()`
and focus moves back to the input.  The list is then shown exactly when no
item was selected and the event hit the widget or its input. -/
def onClick (s : CS) (e : ClickCtx) (selectCanceled : Bool) : CS :=
  let item : Option Item := if e.isClick && e.targetInWidget then e.closestItem else none
  let showList : Bool := item.isNone && (e.targetInWidget || e.targetIsInput)
  let s1 :=
    match item with
    | some it =>
      let s2 := { s with eventsLog := s.eventsLog ++ [SEvent.select] }
      if selectCanceled then s2
      else
        { s2 with
          inputValue := jsOr it.value (jsTrim it.textContent)
          focusOn := some FocusTarget.input }
    | none => s
  { s1 with widgetHidden := !showList }

/-- key codes from the `KEYS` table -/
def KEY_ENTER : Nat := 13
def KEY_ESC : Nat := 27
def KEY_PAGEUP : Nat := 33
def KEY_PAGEDOWN : Nat := 34
def KEY_END : Nat := 35
def KEY_HOME : Nat := 36
def KEY_UP : Nat := 38
def KEY_DOWN : Nat := 40

/-- Is the item at this query result navigable, i.e. matched by
`[tabindex="-1"]:not([hidden])`? -/
def itemNavigable : Option Item → Bool
  | some it => it.tabindexNeg1 && !it.hidden
  | none => false

/-- Positions of the widget's navigable items, in document order. -/
def navIdxList (items : List Item) : List Nat :=
  (List.range items.length).filter (fun i => itemNavigable (items.get? i))

/-- `[self.input].concat(queryAll('[tabindex="-1"]:not([hidden])', self))`:
the keyboard traversal ring. -/
def navItems (items : List Item) : List FocusTarget :=
  FocusTarget.input :: (navIdxList items).map FocusTarget.item

/-- `Array.prototype.indexOf`: position of `x` in `l`, `-1` when absent. -/
def jsElemIndex {α : Type} [DecidableEq α] : List α → α → Int
  | [], _ => -1
  | a :: l, x =>
    if x = a then 0
    else
      let r := jsElemIndex l x
      if r = -1 then -1 else r + 1

/-- JavaScript array subscript at a possibly negative index. -/
def jsNth {α : Type} (l : List α) (i : Int) : Option α :=
  if i < 0 then none else l.get? i.toNat

/-- Outcome of `onKey`: the element focused at the end (if any), whether
`preventDefault` ran, and the value the deferred `self.hidden` assignment
writes (`none` when the guard returned before scheduling it). -/
structure KeyResult where
  focusResult : Option FocusTarget
  preventDefault : Bool
  hiddenAfter : Option Bool
deriving DecidableEq, Repr

/-- `onKey`: returns early unless the event targets the widget or its
input; Down/Up step through the traversal ring (`|| items[0]` wraps past
the end to the input, `|| items.pop()` wraps before the input to the last
item); End/PageDown and Home/PageUp jump within the list when focus is
already inside it; any other non-Enter key inside the list refocuses the
input; the deferred assignment hides the list exactly for Escape. -/
def onKey (items : List Item) (target : FocusTarget) (keyCode : Nat) : KeyResult :=
  if target = FocusTarget.outside then ⟨none, false, none⟩
  else
    let l := navItems items
    let inList : Bool := target ≠ FocusTarget.input
    let item : Option FocusTarget :=
      if keyCode = KEY_DOWN then
        some ((jsNth l (jsElemIndex l target + 1)).getD (l.headD FocusTarget.input))
      else if keyCode = KEY_UP then
        match jsNth l (jsElemIndex l target - 1) with
        | some x => some x
        | none => l.getLast?
      else if inList && (keyCode = KEY_END || keyCode = KEY_PAGEDOWN) then l.getLast?
      else if inList && (keyCode = KEY_HOME || keyCode = KEY_PAGEUP) then l.get? 1
      else none
    let defaultFocusInput : Bool :=
      inList && keyCode ≠ KEY_DOWN && keyCode ≠ KEY_UP &&
        !(keyCode = KEY_END || keyCode = KEY_PAGEDOWN) &&
        !(keyCode = KEY_HOME || keyCode = KEY_PAGEUP) && keyCode ≠ KEY_ENTER
    { focusResult :=
        match item with
        | some x => some x
        | none => if defaultFocusInput then some FocusTarget.input else none
      preventDefault := item.isSome || decide (keyCode = KEY_ESC)
      hiddenAfter := some (decide (keyCode = KEY_ESC)) }

/-- The `responseJSON` expando of the request object: unset, the parsed
payload, or the literal `false` stored when `JSON.parse` threw. -/
inductive JsonField (J : Type) where
  | unset
  | parsed (v : J)
  | failedFlag
deriving DecidableEq, Repr

/-- Fields of the `XMLHttpRequest` object that `onAjaxSend`'s handlers
write.  `J` is the type of parsed JSON payloads. -/
structure XhrState (J : Type) where
  responseJSON : JsonField J
  responseError : Option Str
deriving DecidableEq, Repr

/-- `self._xhr.onload`.  `parseResult` models `JSON.parse(responseText)`:
`Except.ok` a payload, or `Except.error` the thrown error's string form.
With a non-200 status only `suggest.ajax.error` is dispatched; with a 200
status and parseable body only `suggest.ajax`; with a 200 status and an
unparseable body the `catch` block dispatches `suggest.ajax.error` and
control then falls through to dispatch `suggest.ajax` as well. -/
def onloadHandler {J : Type} (status : Int) (parseResult : Except Str J) (x : XhrState J) :
    XhrState J × List SEvent :=
  if status ≠ 200 then (x, [SEvent.ajaxError])
  else
    match parseResult with
    | .ok v => ({ x with responseJSON := JsonField.parsed v }, [SEvent.ajaxData])
    | .error e =>
      ({ x with responseJSON := JsonField.failedFlag, responseError := some e },
        [SEvent.ajaxError, SEvent.ajaxData])

/-- `self._xhr.onerror`: records the descriptive message and dispatches
`suggest.ajax.error`. -/
def onerrorHandler {J : Type} (x : XhrState J) : XhrState J × List SEvent :=
  ({ x with responseError := some "Error: Network request failed".toList }, [SEvent.ajaxError])

theorem countVisible_mutateItems (items : List Item) (i limit : Nat) :
    countVisible (mutateItems items i limit) = min (countVisible items) (limit - i) := by
  induction items generalizing i with
  | nil => simp [mutateItems, countVisible]
  | cons it rest ih =>
    by_cases h : it.hidden
    · simp only [mutateItems, h, if_true, countVisible, ih]
      omega
    · by_cases hle : limit ≤ i
      · simp [mutateItems, h, countVisible, ih, decide_eq_true hle]
        omega
      · simp [mutateItems, h, countVisible, ih, decide_eq_false hle]
        omega

theorem limitGetter_pos (L : Int) (hL : 0 < L) : limitGetter (some L) = some L.toNat := by
  unfold limitGetter
  have hmax : max (0 : Int) L = L := by omega
  simp only [hmax]
  rw [if_neg (by omega)]

theorem onMutation_items_eq (s : CS) (hObs : s.observerActive = true) :
    (onMutation s).items =
      mutateItems s.items 0 (jsMinLimit (countVisible s.items) (limitGetter s.limitAttr)) := by
  simp [onMutation, hObs]

/-- C1 (corrected): the original claim fails at `limit="0"`, which the
getter `Math.max(0, attr) || Infinity` turns into `Infinity`.  Amended: a
mutation pass over a widget whose `N` candidate items are all counted
visible leaves exactly `min(N, L)` of them visible when the `limit`
attribute is a positive integer `L`; when the attribute is absent or `0`
the limit is unlimited and all `N` stay visible. -/
theorem c1_mutation_min_limit_visible (s : CS) (hObs : s.observerActive = true) :
    (∀ L : Int, 0 < L → s.limitAttr = some L →
      countVisible (onMutation s).items = min (countVisible s.items) L.toNat) ∧
    ((s.limitAttr = none ∨ s.limitAttr = some 0) →
      countVisible (onMutation s).items = countVisible s.items) := by
  rw [onMutation_items_eq s hObs]
  constructor
  · intro L hL hattr
    rw [countVisible_mutateItems, hattr, limitGetter_pos L hL]
    simp only [jsMinLimit]
    omega
  · intro hattr
    have hget : limitGetter s.limitAttr = none := by
      rcases hattr with h | h <;> rw [h] <;> decide
    rw [countVisible_mutateItems, hget]
    simp only [jsMinLimit]
    omega

/-- C1 counterexample: one visible candidate and `limit="0"`; the claim
demands `min(1, 0) = 0` visible items after the pass, but the code leaves
the single item visible because a `limit` attribute of `0` is coerced to
`Infinity`. -/
theorem c1_counterexample :
    countVisible (onMutation { baseCS with items := [default], limitAttr := some 0 }).items ≠
      min 1 0 := by
  decide

/-- Three visible default candidates under `limit="2"`. -/
def threeItemsLimit2 : CS := { baseCS with items := [default, default, default], limitAttr := some 2 }

/-- C1 witness: three visible candidates with `limit="2"` keep exactly
`min(3, 2) = 2` visible. -/
theorem c1_witness :
    threeItemsLimit2.observerActive = true ∧ (0 : Int) < 2 ∧
    countVisible (onMutation threeItemsLimit2).items = min 3 2 := by
  refine ⟨rfl, by decide, ?_⟩
  have h := (c1_mutation_min_limit_visible threeItemsLimit2 rfl).1 2 (by decide) rfl
  rw [h]
  decide

theorem forall2_hidden_mutateItems (items : List Item) (i limit : Nat) :
    List.Forall₂ (fun a b => a.hidden = true → b.hidden = true) items
      (mutateItems items i limit) := by
  induction items generalizing i with
  | nil => exact List.Forall₂.nil
  | cons it rest ih =>
    by_cases h : it.hidden
    · simp only [mutateItems, h, if_true]
      exact List.Forall₂.cons (fun hh => hh) (ih i)
    · simp only [mutateItems, h, if_false]
      refine List.Forall₂.cons (fun hh => absurd hh ?_) (ih (i + 1))
      simp [h]


/-- C10 (confirmed): a mutation pass never reveals a hidden candidate —
the pass queries only `a:not([hidden]),button:not([hidden])`, so every item
carrying `hidden` on entry still carries it on exit, and the number of
visible items never grows. -/
theorem c10_mutation_never_reveals (s : CS) :
    List.Forall₂ (fun a b => a.hidden = true → b.hidden = true) s.items (onMutation s).items ∧
    countVisible (onMutation s).items ≤ countVisible s.items := by
  by_cases hObs : s.observerActive
  · rw [onMutation_items_eq s hObs]
    refine ⟨forall2_hidden_mutateItems _ _ _, ?_⟩
    rw [countVisible_mutateItems]
    omega
  · have hb : s.observerActive = false := by
      cases hx : s.observerActive
      · rfl
      · exact absurd hx hObs
    have hs : onMutation s = s := by simp [onMutation, hb]
    rw [hs]
    exact ⟨List.forall₂_same.mpr (fun a _ h => h), le_refl _⟩

/-- A widget with an endpoint configured, a pending debounce timer and a
request in flight. -/
def pendingCS : CS :=
  { baseCS with
    ajaxAttr := "/api?q={{value}}".toList
    inputValue := "ab".toList
    timerId := some 0
    nextTimer := 1
    inflight := ["ab".toList]
    sent := ["ab".toList] }

/-- C2 counterexample: `disconnectedCallback` neither clears the pending
debounce timer nor aborts the in-flight request — it only nulls the
references — so on a widget with both pending, the claim's "every pending
debounce timer is canceled, and any in-flight network request is aborted"
is false. -/
theorem c2_counterexample :
    ¬ ((disconnectedCallback pendingCS).timerId = none ∧
       (disconnectedCallback pendingCS).inflight = []) := by
  decide

/-- C2 (corrected): after `disconnectedCallback` all four document-level
listeners are removed, observation is stopped and the internal references
(`_observer`, `_input`, `_regex`, `_xhr`) are released; however the pending
debounce timer is not canceled and an in-flight request is not aborted —
both survive untouched, and a later expiry of the timer is a no-op only
because `onAjaxSend` checks the nulled observer before sending. -/
theorem c2_disconnect_cleanup (s : CS) :
    (disconnectedCallback s).listenClick = false ∧
    (disconnectedCallback s).listenInput = false ∧
    (disconnectedCallback s).listenKeydown = false ∧
    (disconnectedCallback s).listenFocusin = false ∧
    (disconnectedCallback s).observerActive = false ∧
    (disconnectedCallback s).inputRef = false ∧
    (disconnectedCallback s).regexRef = false ∧
    (disconnectedCallback s).xhrRef = false ∧
    (disconnectedCallback s).timerId = s.timerId ∧
    (disconnectedCallback s).inflight = s.inflight ∧
    (∀ bs, onAjaxSend (disconnectedCallback s) bs = disconnectedCallback s) := by
  refine ⟨rfl, rfl, rfl, rfl, rfl, rfl, rfl, rfl, rfl, rfl, ?_⟩
  intro bs
  simp [onAjaxSend, disconnectedCallback]

/-- C3 counterexample: a 200 response whose body fails to parse dispatches
`suggest.ajax.error` and then still dispatches `suggest.ajax` (the `catch`
block does not return), so the claim that the error notification is
emitted *instead* of the data notification is false. -/
theorem c3_counterexample :
    (onloadHandler (J := Nat) 200 (Except.error "SyntaxError: Unexpected token".toList)
        ⟨JsonField.unset, none⟩).2 =
      [SEvent.ajaxError, SEvent.ajaxData] := by
  decide

/-- C3 (corrected): with a 200 status and a parseable body, only the
`suggest.ajax` data notification fires and the parsed payload is stored;
with a non-200 status, only `suggest.ajax.error` fires; with a network
failure, only `suggest.ajax.error` fires carrying the descriptive message;
with a 200 status but an unparseable body, `suggest.ajax.error` fires with
the parse error recorded and the `suggest.ajax` notification follows
anyway carrying `responseJSON = false`.  No branch throws. -/
theorem c3_ajax_response_events {J : Type} (status : Int) (parseResult : Except Str J)
    (x : XhrState J) :
    (status ≠ 200 → onloadHandler status parseResult x = (x, [SEvent.ajaxError])) ∧
    (∀ v, status = 200 → parseResult = Except.ok v →
      onloadHandler status parseResult x =
        ({ x with responseJSON := JsonField.parsed v }, [SEvent.ajaxData])) ∧
    (∀ e, status = 200 → parseResult = Except.error e →
      onloadHandler status parseResult x =
        ({ x with responseJSON := JsonField.failedFlag, responseError := some e },
          [SEvent.ajaxError, SEvent.ajaxData])) ∧
    ((onerrorHandler x).2 = [SEvent.ajaxError] ∧
      (onerrorHandler x).1.responseError = some "Error: Network request failed".toList) := by
  refine ⟨?_, ?_, ?_, rfl, rfl⟩
  · intro hst
    simp [onloadHandler, hst]
  · intro v hst hp
    simp [onloadHandler, hst, hp]
  · intro e hst hp
    simp [onloadHandler, hst, hp]

/-- C3 witness: a 404 response dispatches exactly the error notification. -/
theorem c3_witness :
    onloadHandler (J := Nat) 404 (Except.ok 7) ⟨JsonField.unset, none⟩ =
      (⟨JsonField.unset, none⟩, [SEvent.ajaxError]) :=
  (c3_ajax_response_events 404 (Except.ok 7) ⟨JsonField.unset, none⟩).1 (by decide)

/-- C9 (confirmed): when the debounce timer expires with an empty input
value, `onAjaxSend` returns before dispatching `suggest.ajax.beforeSend`
and before sending: no request is issued, no notification fires, and the
in-flight slot is untouched. -/
theorem c9_no_fetch_on_empty_input (s : CS) (id : Nat) (bs : Bool)
    (h : s.inputValue = []) :
    (stepEv s (TraceEv.timerFire id bs)).sent = s.sent ∧
    (stepEv s (TraceEv.timerFire id bs)).eventsLog = s.eventsLog ∧
    (stepEv s (TraceEv.timerFire id bs)).inflight = s.inflight := by
  by_cases ht : s.timerId = some id
  · simp [stepEv, ht, onAjaxSend, h]
  · simp [stepEv, ht]

/-- An endpoint-configured widget whose input is empty and whose debounce
timer is pending. -/
def emptyInputPending : CS :=
  { baseCS with ajaxAttr := "/api?q={{value}}".toList, timerId := some 0, nextTimer := 1 }

/-- C9 witness: firing the pending timer of a widget with empty input
sends nothing and dispatches nothing. -/
theorem c9_witness :
    (stepEv emptyInputPending (TraceEv.timerFire 0 false)).sent = emptyInputPending.sent ∧
    (stepEv emptyInputPending (TraceEv.timerFire 0 false)).eventsLog =
      emptyInputPending.eventsLog ∧
    (stepEv emptyInputPending (TraceEv.timerFire 0 false)).inflight =
      emptyInputPending.inflight :=
  c9_no_fetch_on_empty_input emptyInputPending 0 false rfl

/-- "At most one request in flight, and none while a debounce timer is
pending" — the single-slot `_xhr` discipline: `onAjax` always aborts the
previous request before arming the timer. -/
def atMostOneInflight (s : CS) : Prop :=
  s.inflight.length ≤ 1 ∧ (s.timerId.isSome = true → s.inflight = [])

instance (s : CS) : Decidable (atMostOneInflight s) := by
  unfold atMostOneInflight
  infer_instance

theorem stepEv_preserves_inflight_inv (s : CS) (e : TraceEv) (h : atMostOneInflight s) :
    atMostOneInflight (stepEv s e) := by
  obtain ⟨h1, h2⟩ := h
  cases e with
  | keystroke v fc =>
    simp only [stepEv, onInput]
    by_cases hfc : fc
    · simp only [hfc, if_true, if_false, ite_true]
      exact ⟨by simpa using h1, by simpa using h2⟩
    · by_cases hajax : s.ajaxAttr ≠ []
      · simp [hfc, hajax, onAjax, atMostOneInflight]
      · simp only [hfc, hajax]
        refine ⟨by simpa using h1, by simpa using h2⟩
  | timerFire id bs =>
    by_cases ht : s.timerId = some id
    · have hempty : s.inflight = [] := h2 (by simp [ht])
      simp only [stepEv, ht, if_pos rfl]
      by_cases hsend : ({ s with timerId := none } : CS).observerActive = false ∨
          s.inputValue = []
      · unfold onAjaxSend
        rcases hsend with hs1 | hs1 <;>
          simp_all [atMostOneInflight, hempty]
      · unfold onAjaxSend
        push_neg at hsend
        obtain ⟨ho, hi⟩ := hsend
        by_cases hbs : bs <;>
          simp_all [atMostOneInflight, hempty]
    · simp only [stepEv, ht, if_false, ite_false]
      exact ⟨by simpa using h1, by simpa using h2⟩
  | complete => simp [stepEv, atMostOneInflight]

theorem runEvs_preserves_inflight_inv (s : CS) (evs : List TraceEv)
    (h : atMostOneInflight s) : atMostOneInflight (runEvs s evs) := by
  induction evs generalizing s with
  | nil => exact h
  | cons e rest ih => exact ih (stepEv s e) (stepEv_preserves_inflight_inv s e h)

/-- C4 (confirmed): two fetch-triggering keystrokes in a row (the second
arriving before the first timer fires, so the first `setTimeout` handle is
superseded and its expiry a no-op) issue exactly one request, carrying the
input value of the second keystroke; and every event sequence preserves
the single-slot discipline of at most one request in flight. -/
theorem c4_debounced_fetch (s : CS) (v1 v2 : Str) (hajax : s.ajaxAttr ≠ [])
    (hobs : s.observerActive = true) (hv2 : v2 ≠ []) :
    ((runEvs s [TraceEv.keystroke v1 false, TraceEv.keystroke v2 false,
        TraceEv.timerFire (s.nextTimer + 1) false]).sent = s.sent ++ [v2]) ∧
    ((runEvs s [TraceEv.keystroke v1 false, TraceEv.keystroke v2 false]).sent = s.sent) ∧
    (stepEv (runEvs s [TraceEv.keystroke v1 false, TraceEv.keystroke v2 false])
        (TraceEv.timerFire s.nextTimer false) =
      runEvs s [TraceEv.keystroke v1 false, TraceEv.keystroke v2 false]) ∧
    (∀ evs, atMostOneInflight s → atMostOneInflight (runEvs s evs)) := by
  have h12 : runEvs s [TraceEv.keystroke v1 false, TraceEv.keystroke v2 false] =
      { s with
          inputValue := v2, eventsLog := s.eventsLog ++ [SEvent.filter, SEvent.filter],
          timerId := some (s.nextTimer + 1), nextTimer := s.nextTimer + 2, inflight := [] } := by
    simp [runEvs, stepEv, onInput, onAjax, hajax]
  refine ⟨?_, ?_, ?_, fun evs h => runEvs_preserves_inflight_inv s evs h⟩
  · rw [show runEvs s [TraceEv.keystroke v1 false, TraceEv.keystroke v2 false,
        TraceEv.timerFire (s.nextTimer + 1) false] =
        stepEv (runEvs s [TraceEv.keystroke v1 false, TraceEv.keystroke v2 false])
          (TraceEv.timerFire (s.nextTimer + 1) false) from rfl, h12]
    simp [stepEv, onAjaxSend, hobs, hv2]
  · rw [h12]
  · rw [h12]
    simp only [stepEv]
    rw [if_neg (by intro hc; simp at hc)]

/-- A widget with only a remote endpoint configured. -/
def ajaxCS : CS := { baseCS with ajaxAttr := "/s?q={{value}}".toList }

/-- C4 witness: typing "a" then "ab" within the debounce window issues the
single request "ab". -/
theorem c4_witness :
    (runEvs ajaxCS [TraceEv.keystroke "a".toList false, TraceEv.keystroke "ab".toList false,
        TraceEv.timerFire (ajaxCS.nextTimer + 1) false]).sent = ajaxCS.sent ++ ["ab".toList] :=
  (c4_debounced_fetch ajaxCS "a".toList "ab".toList (by decide) rfl (by decide)).1

theorem jsIndexOf_eq_neg_one_iff (h n : Str) : jsIndexOf h n = -1 ↔ ¬ occursIn n h := by
  unfold jsIndexOf
  cases hf : jsIndexOfFrom h n 0 with
  | some p =>
    have hocc : occursIn n h := by
      have hp := List.find?_some hf
      simp only [Bool.and_eq_true, decide_eq_true_eq, matchesAt] at hp
      exact ⟨p, hp.2⟩
    show ((p : Nat) : Int) = -1 ↔ ¬ occursIn n h
    constructor
    · intro hp
      exact absurd hp (by omega)
    · intro hno
      exact absurd hocc hno
  | none =>
    have hall := List.find?_eq_none.mp hf
    show (-1 : Int) = -1 ↔ ¬ occursIn n h
    constructor
    · rintro - ⟨p, hp⟩
      by_cases hlen : p ≤ h.length
      · have := hall p (List.mem_range.mpr (by omega))
        simp only [Bool.and_eq_true, decide_eq_true_eq, matchesAt] at this
        exact absurd ⟨Nat.zero_le p, hp⟩ this
      · have hdp : h.drop p = [] := List.drop_eq_nil_of_le (by omega)
        rw [hdp] at hp
        have := hall h.length (List.mem_range.mpr (by omega))
        simp only [Bool.and_eq_true, decide_eq_true_eq, matchesAt] at this
        have hdl : h.drop h.length = [] := List.drop_eq_nil_of_le (by omega)
        rw [hdl] at this
        exact absurd ⟨Nat.zero_le _, hp⟩ this
    · intro _
      rfl

/-- C6 counterexample: a `<button>` candidate with `value="x"` and text
"abc"; typing "abc" hides it even though its text contains the typed value,
because the filter matches against `item.value || item.textContent`, not
the text. -/
def c6item : Item :=
  { value := "x".toList, textContent := "abc".toList, hidden := false, tabindexNeg1 := true,
    ariaLabel := [], typeAttr := [] }

/-- The widget holding `c6item` with "abc" typed and no endpoint. -/
def c6cs : CS := { baseCS with items := [c6item], inputValue := "abc".toList }

/-- C6 counterexample (see `c6item`): the claim predicts the candidate
stays visible since its text contains the typed value; the code hides it. -/
theorem c6_counterexample :
    ¬ (occursIn (jsToLower c6cs.inputValue) (jsToLower c6item.textContent) →
       ((onInput c6cs true false).items.getD 0 default).hidden = false) := by
  decide

/-- C6 (corrected): on a keystroke in the input with the `suggest.filter`
notification not canceled and no endpoint configured, each candidate ends
hidden exactly when the lowercased typed value does not occur in the
lowercased `item.value || item.textContent` (the value property when
nonempty, the text otherwise — not always the text); the filter changes
nothing else about an item.  With an endpoint configured, items are left
untouched (local filtering is skipped), and events not targeting the
input do nothing. -/
theorem c6_local_filtering (s : CS) :
    (s.ajaxAttr = [] →
      List.Forall₂ (fun a b =>
        (b.hidden = true ↔ ¬ occursIn (jsToLower s.inputValue) (jsToLower (jsOr a.value a.textContent)))
        ∧ b.value = a.value ∧ b.textContent = a.textContent)
      s.items (onInput s true false).items) ∧
    (s.ajaxAttr ≠ [] → (onInput s true false).items = s.items) ∧
    (∀ fc, (onInput s false fc) = s) := by
  refine ⟨?_, ?_, fun fc => rfl⟩
  · intro hajax
    have hitems : (onInput s true false).items = filterItems s.items (jsToLower s.inputValue) := by
      simp [onInput, hajax]
    rw [hitems]
    unfold filterItems
    rw [List.forall₂_map_right_iff]
    refine List.forall₂_same.mpr (fun a _ => ⟨?_, rfl, rfl⟩)
    simp only [toggleItem, decide_eq_true_eq]
    exact jsIndexOf_eq_neg_one_iff _ _
  · intro hajax
    simp [onInput, onAjax, hajax]

/-- C6 witness: the corrected filtering relation holds on the concrete
widget `c6cs`. -/
theorem c6_witness :
    List.Forall₂ (fun a b =>
      (b.hidden = true ↔
        ¬ occursIn (jsToLower c6cs.inputValue) (jsToLower (jsOr a.value a.textContent)))
      ∧ b.value = a.value ∧ b.textContent = a.textContent)
      c6cs.items (onInput c6cs true false).items :=
  (c6_local_filtering c6cs).1 rfl

/-- A candidate with a value and some text, used for the click/focus
claims. -/
def c7item : Item :=
  { value := [], textContent := " Oslo ".toList, hidden := false, tabindexNeg1 := true,
    ariaLabel := [], typeAttr := [] }

/-- The widget holding `c7item`. -/
def c7cs : CS := { baseCS with items := [c7item] }

/-- A `focusin` event whose target is the candidate `c7item` inside the
widget. -/
def c7focusEvent : ClickCtx :=
  { isClick := false, targetInWidget := true, targetIsInput := false, closestItem := some c7item }

/-- A `click` event whose target is the candidate `c7item` inside the
widget. -/
def c7clickEvent : ClickCtx :=
  { isClick := true, targetInWidget := true, targetIsInput := false, closestItem := some c7item }

/-- C7 counterexample: merely focusing a candidate (a `focusin` event on
`c7item`) dispatches no `suggest.select` and leaves the input value
unchanged — `onClick` requires `event.type === 'click'` to resolve an
item — contradicting the claim that focusing a candidate selects it. -/
theorem c7_counterexample :
    (onClick c7cs c7focusEvent false).eventsLog = [] ∧
    (onClick c7cs c7focusEvent false).inputValue = c7cs.inputValue := by
  decide

/-- C7 (corrected): only *clicking* a candidate selects it: the cancelable
`suggest.select` notification fires; if it is not canceled the input's
value becomes `item.value || item.textContent.trim()` and focus returns to
the input; if it is canceled the input's value is unchanged.  Focusing a
candidate does not select: no notification fires and the value is
untouched (the list is merely kept visible). -/
theorem c7_click_selects (s : CS) (it : Item) (e : ClickCtx)
    (hc : e.isClick = true) (hw : e.targetInWidget = true) (hi : e.closestItem = some it) :
    ((onClick s e false).eventsLog = s.eventsLog ++ [SEvent.select] ∧
     (onClick s e false).inputValue = jsOr it.value (jsTrim it.textContent) ∧
     (onClick s e false).focusOn = some FocusTarget.input) ∧
    ((onClick s e true).eventsLog = s.eventsLog ++ [SEvent.select] ∧
     (onClick s e true).inputValue = s.inputValue) ∧
    (∀ e2 : ClickCtx, e2.isClick = false → ∀ c,
      (onClick s e2 c).eventsLog = s.eventsLog ∧ (onClick s e2 c).inputValue = s.inputValue) := by
  refine ⟨?_, ?_, ?_⟩
  · simp [onClick, hc, hw, hi]
  · simp [onClick, hc, hw, hi]
  · intro e2 he2 c
    simp [onClick, he2]

/-- C7 witness: clicking `c7item` fires `suggest.select`, writes the
trimmed text into the input and refocuses it. -/
theorem c7_witness :
    (onClick c7cs c7clickEvent false).eventsLog = c7cs.eventsLog ++ [SEvent.select] ∧
    (onClick c7cs c7clickEvent false).inputValue = jsOr c7item.value (jsTrim c7item.textContent) ∧
    (onClick c7cs c7clickEvent false).focusOn = some FocusTarget.input :=
  (c7_click_selects c7cs c7item c7clickEvent rfl rfl rfl).1

theorem onMutation_preserves_fields (s : CS) :
    (onMutation s).highlightAttr = s.highlightAttr ∧
    (onMutation s).inputValue = s.inputValue ∧
    (onMutation s).observerActive = s.observerActive := by
  unfold onMutation
  by_cases hObs : s.observerActive
  · simp [hObs]
  · simp [hObs]

theorem onMutation_marks_keep (s : CS) (hObs : s.observerActive = true)
    (hg : highlightGetter s.highlightAttr = "keep".toList) :
    (onMutation s).marks = s.marks := by
  simp [onMutation, hObs, hg]

theorem onMutation_marks_off (s : CS) (hObs : s.observerActive = true)
    (hg : highlightGetter s.highlightAttr = "off".toList) :
    (onMutation s).marks = [] := by
  simp [onMutation, hObs, hg]

theorem onMutation_marks_on (s : CS) (hObs : s.observerActive = true)
    (hg : highlightGetter s.highlightAttr = "on".toList) :
    (onMutation s).marks =
      if jsTrim (jsToLower s.inputValue) = [] then []
      else
        (findHits (jsToLower (fullText (onMutation s).items)) (jsTrim (jsToLower s.inputValue))).map
          (fun p => (p, p + (jsTrim (jsToLower s.inputValue)).length)) := by
  by_cases hn : jsTrim (jsToLower s.inputValue) = []
  · simp [onMutation, hObs, hg, hn]
  · simp [onMutation, hObs, hg, hn, IS_IE11]

theorem findHitsAux_sound (fuel : Nat) (h n : Str) (start p : Nat)
    (hp : p ∈ findHitsAux fuel h n start) : matchesAt h n p = true := by
  induction fuel generalizing start with
  | zero => simp [findHitsAux] at hp
  | succ f ih =>
    unfold findHitsAux at hp
    cases hf : jsIndexOfFrom h n start with
    | none =>
      rw [hf] at hp
      simp at hp
    | some q =>
      rw [hf] at hp
      simp only [List.mem_cons] at hp
      rcases hp with rfl | hrec
      · have hq := List.find?_some hf
        simp only [Bool.and_eq_true, decide_eq_true_eq] at hq
        exact hq.2
      · exact ih _ hrec

theorem findHits_sound (h n : Str) (p : Nat) (hp : p ∈ findHits h n) :
    matchesAt h n p = true :=
  findHitsAux_sound _ h n 0 p hp

/-- Is the character position `q` inside one of the modelled `<mark>`
intervals? -/
def posInMarks (marks : List (Nat × Nat)) (q : Nat) : Bool :=
  marks.any (fun m => decide (m.1 ≤ q) && decide (q < m.2))

/-- A single visible candidate reading "aaa" with "aa" typed and
`highlight="on"`. -/
def c5item : Item :=
  { value := [], textContent := "aaa".toList, hidden := false, tabindexNeg1 := false,
    ariaLabel := [], typeAttr := [] }

/-- The widget for the C5 counterexample. -/
def c5cs : CS :=
  { baseCS with
      items := [c5item], inputValue := "aa".toList, highlightAttr := some "on".toList }

/-- C5 counterexample: with candidate text "aaa" and input "aa" in
highlight mode `on`, the occurrence of "aa" at position 1 of the visible
candidate's text is *not* wrapped (position 2 lies in no marker): the
`indexOf` scan restarts after each hit, so overlapping occurrences are
skipped, refuting "every case-insensitive occurrence … is wrapped". -/
theorem c5_counterexample :
    ¬ (∀ p, matchesAt (jsToLower (fullText (onMutation c5cs).items))
          (jsTrim (jsToLower c5cs.inputValue)) p = true →
        ∀ q, p ≤ q → q < p + (jsTrim (jsToLower c5cs.inputValue)).length →
          posInMarks (onMutation c5cs).marks q = true) := by
  intro hclaim
  have h2 := hclaim 1 (by decide) 2 (by decide) (by decide)
  exact absurd h2 (by decide)

/-- C5 (corrected): with highlight mode `keep` the marks survive one and
two mutation passes unchanged; with `off` they are removed and none are
added; with `on` the old marks are removed and new marks are placed at
exactly the hits of the non-overlapping left-to-right `indexOf` scan of
the trimmed lowercased input over the widget's entire lowercased text
(hidden items' text included), each hit being a genuine occurrence; an
empty (trimmed) input yields no marks. -/
theorem c5_highlight_modes (s : CS) (hObs : s.observerActive = true) :
    (s.highlightAttr = some "keep".toList →
      (onMutation s).marks = s.marks ∧ (onMutation (onMutation s)).marks = s.marks) ∧
    (s.highlightAttr = some "off".toList → (onMutation s).marks = []) ∧
    (s.highlightAttr = some "on".toList →
      (onMutation s).marks =
        (if jsTrim (jsToLower s.inputValue) = [] then []
         else
           (findHits (jsToLower (fullText (onMutation s).items))
               (jsTrim (jsToLower s.inputValue))).map
             (fun p => (p, p + (jsTrim (jsToLower s.inputValue)).length)))) ∧
    (∀ p, p ∈ findHits (jsToLower (fullText (onMutation s).items))
        (jsTrim (jsToLower s.inputValue)) →
      matchesAt (jsToLower (fullText (onMutation s).items))
        (jsTrim (jsToLower s.inputValue)) p = true) := by
  obtain ⟨hha, hiv, hoa⟩ := onMutation_preserves_fields s
  refine ⟨?_, ?_, ?_, fun p hp => findHits_sound _ _ p hp⟩
  · intro hattr
    have hg : highlightGetter s.highlightAttr = "keep".toList := by rw [hattr]; decide
    have h1 := onMutation_marks_keep s hObs hg
    refine ⟨h1, ?_⟩
    have hg2 : highlightGetter (onMutation s).highlightAttr = "keep".toList := by
      rw [hha]; exact hg
    have hObs2 : (onMutation s).observerActive = true := by rw [hoa]; exact hObs
    rw [onMutation_marks_keep (onMutation s) hObs2 hg2, h1]
  · intro hattr
    exact onMutation_marks_off s hObs (by rw [hattr]; decide)
  · intro hattr
    exact onMutation_marks_on s hObs (by rw [hattr]; decide)

/-- The widget for the C5 witness: existing marks under
`highlight="keep"`. -/
def c5keepCS : CS :=
  { baseCS with
      items := [c5item], inputValue := "aa".toList, highlightAttr := some "keep".toList,
      marks := [(0, 2)] }

/-- C5 witness: under `highlight="keep"`, one and two mutation passes
leave the pre-existing marks untouched. -/
theorem c5_witness :
    (onMutation c5keepCS).marks = c5keepCS.marks ∧
    (onMutation (onMutation c5keepCS)).marks = c5keepCS.marks :=
  (c5_highlight_modes c5keepCS rfl).1 rfl

theorem navIdxList_nodup (items : List Item) : (navIdxList items).Nodup :=
  (List.nodup_range items.length).filter _

theorem navItems_nodup (items : List Item) : (navItems items).Nodup := by
  unfold navItems
  refine List.nodup_cons.mpr ⟨?_, ?_⟩
  · simp [List.mem_map]
  · exact List.Nodup.map (fun a b hab => by injection hab) (navIdxList_nodup items)

theorem navItems_ne_outside (items : List Item) (t : FocusTarget)
    (ht : t ∈ navItems items) : t ≠ FocusTarget.outside := by
  unfold navItems at ht
  rcases List.mem_cons.mp ht with rfl | hm
  · intro hcon
    cases hcon
  · rcases List.mem_map.mp hm with ⟨i, -, rfl⟩
    intro hcon
    cases hcon

theorem jsElemIndex_get {α : Type} [DecidableEq α] (l : List α) (hnd : l.Nodup) (j : Nat)
    (x : α) (hj : l.get? j = some x) : jsElemIndex l x = (j : Int) := by
  induction l generalizing j with
  | nil => simp at hj
  | cons a t ih =>
    rcases List.nodup_cons.mp hnd with ⟨ha, ht⟩
    cases j with
    | zero =>
      simp only [List.get?] at hj
      injection hj with hj
      subst hj
      simp [jsElemIndex]
    | succ j' =>
      have hj' : t.get? j' = some x := by simpa using hj
      have hxt : x ∈ t := List.get?_mem hj'
      have hxa : ¬ x = a := by
        rintro rfl
        exact ha hxt
      have hr := ih ht j' hj'
      simp only [jsElemIndex, if_neg hxa]
      rw [hr, if_neg (by omega)]
      omega

theorem jsNth_natCast {α : Type} (l : List α) (n : Nat) : jsNth l (n : Int) = l.get? n := by
  simp [jsNth]

theorem onKey_down_focus (items : List Item) (t : FocusTarget) (ht : t ≠ FocusTarget.outside) :
    (onKey items t KEY_DOWN).focusResult =
      some ((jsNth (navItems items) (jsElemIndex (navItems items) t + 1)).getD
        ((navItems items).headD FocusTarget.input)) := by
  unfold onKey
  rw [if_neg ht]
  simp

theorem onKey_up_focus (items : List Item) (t : FocusTarget) (ht : t ≠ FocusTarget.outside) :
    (onKey items t KEY_UP).focusResult =
      match jsNth (navItems items) (jsElemIndex (navItems items) t - 1) with
      | some x => some x
      | none => (navItems items).getLast? := by
  unfold onKey
  rw [if_neg ht]
  simp only [KEY_UP, KEY_DOWN, KEY_END, KEY_PAGEDOWN, KEY_HOME, KEY_PAGEUP, KEY_ENTER]
  norm_num
  cases jsNth (navItems items) (jsElemIndex (navItems items) t - 1) with
  | some x => simp
  | none =>
    simp only []
    cases (navItems items).getLast? with
    | some y => rfl
    | none => rfl

/-- C8 (confirmed): with the traversal ring `l = [input] ++` (visible
`tabindex="-1"` items in document order): Down from the `j`-th ring entry
focuses the `j+1`-st, wrapping to the input past the end; Up from a ring
entry at `j > 0` focuses the `j-1`-st, and Up from the input wraps to the
last ring entry; and an item carrying the `hidden` attribute never appears
in the ring. -/
theorem c8_keyboard_navigation (items : List Item) (j : Nat) (t : FocusTarget)
    (hj : (navItems items).get? j = some t) :
    ((onKey items t KEY_DOWN).focusResult =
      some (((navItems items).get? (j + 1)).getD FocusTarget.input)) ∧
    (0 < j → (onKey items t KEY_UP).focusResult = (navItems items).get? (j - 1)) ∧
    (t = FocusTarget.input → (onKey items t KEY_UP).focusResult = (navItems items).getLast?) ∧
    (∀ i it, items.get? i = some it → it.hidden = true → FocusTarget.item i ∉ navItems items) := by
  have hnd := navItems_nodup items
  have htmem : t ∈ navItems items := List.get?_mem hj
  have htout : t ≠ FocusTarget.outside := navItems_ne_outside items t htmem
  have hidx : jsElemIndex (navItems items) t = (j : Int) :=
    jsElemIndex_get (navItems items) hnd j t hj
  have hjlen : j < (navItems items).length := by
    rcases List.get?_eq_some.mp hj with ⟨hlt, -⟩
    exact hlt
  refine ⟨?_, ?_, ?_, ?_⟩
  · rw [onKey_down_focus items t htout, hidx]
    rw [show (j : Int) + 1 = ((j + 1 : Nat) : Int) by omega, jsNth_natCast]
    cases hc : (navItems items).get? (j + 1) with
    | some x => simp
    | none => simp [navItems]
  · intro hjpos
    rw [onKey_up_focus items t htout, hidx]
    rw [show (j : Int) - 1 = ((j - 1 : Nat) : Int) by omega, jsNth_natCast]
    cases hc : (navItems items).get? (j - 1) with
    | some x => simp
    | none =>
      have := List.get?_eq_none.mp hc
      omega
  · rintro rfl
    rw [onKey_up_focus items FocusTarget.input htout]
    have h0 : jsElemIndex (navItems items) FocusTarget.input = 0 := by
      simp [navItems, jsElemIndex]
    rw [h0]
    simp [jsNth]
  · intro i it hgi hhid hmem
    unfold navItems at hmem
    rcases List.mem_cons.mp hmem with hcon | hm
    · cases hcon
    · rcases List.mem_map.mp hm with ⟨i2, hi2, heq⟩
      injection heq with heq2
      subst heq2
      unfold navIdxList at hi2
      rcases (List.mem_filter.mp hi2) with ⟨-, hnav⟩
      rw [hgi] at hnav
      simp [itemNavigable, hhid] at hnav

/-- The single visible, `tabindex="-1"` candidate used by the C8
witness. -/
def c8item : Item :=
  { value := [], textContent := "a".toList, hidden := false, tabindexNeg1 := true,
    ariaLabel := [], typeAttr := [] }

/-- C8 witness: pressing Down on the input with one visible candidate
focuses that candidate (ring position 1). -/
theorem c8_witness :
    (onKey [c8item] FocusTarget.input KEY_DOWN).focusResult =
      some (((navItems [c8item]).get? (0 + 1)).getD FocusTarget.input) :=
  (c8_keyboard_navigation [c8item] 0 FocusTarget.input (by decide)).1
